import Mathlib

/-!
Shallow embedding of the payment-schedule accounting core of the
ynab-debt-tracker repository.

Modelling conventions:
* Calendar dates are integers: days since a fixed epoch chosen so that
  day 0 is a Sunday.  The weekday ordinal of day `d` is therefore
  `d % 7` (Euclidean remainder, always in 0..6), matching the
  JavaScript convention 0 = Sunday .. 6 = Saturday used by dayjs.
* All the day-granularity dayjs comparisons in the source
  (`isBefore`, `isAfter`, `isSame` on date-only values) become the
  corresponding integer comparisons on day numbers.
* Monetary decimal amounts are rationals; YNAB milliunit amounts are
  integers.  `Math.round` is `round` (round half up, as in JavaScript),
  `Math.ceil` is `Int.ceil`, `Math.abs` is absolute value.
* The implicit "current date" (`dayjs()`, `new Date()`) of each source
  function is threaded as an explicit parameter, as the computation
  holds it fixed for one evaluation.  For the day-granular comparisons
  (`calculatePaymentDaysRemaining`, `debtStatus`) the result is
  invariant to the time of day, so the parameter is the calendar day
  `today : Int`.  `getDaysUntilDeadline` is the exception: dayjs `diff`
  works on the raw millisecond difference and truncates the elapsed
  time of day, so there the instant is threaded at millisecond
  precision (`nowMs : Int`, milliseconds since the epoch midnight, one
  day being 86400000 ms).
* The string result of `estimatedFinishDate` is abstracted to
  `Option Int`: `none` is the sentinel string "N/A", and `some d` is
  the finish date whose locale formatting the source returns.
-/

/-- One reconciled payment-history entry, mirroring the source interface
`PaymentHistoryItem` (date, amount, balance, cleared?, memo?). -/
structure PaymentHistoryItem where
  date : Int
  amount : Rat
  balance : Rat
  cleared : Option String
  memo : Option String
deriving DecidableEq

/-- One raw ledger transaction as consumed from the YNAB API: a date, a
signed milliunit amount, a clearance flag and an optional memo. -/
structure RawTransaction where
  date : Int
  amount : Int
  cleared : String
  memo : Option String
deriving DecidableEq

/-- Source `milliunitsToCurrency`: divides by 1000. -/
def milliunitsToCurrency (milliunits : Rat) : Rat :=
  milliunits / 1000

/-- Source `currencyToMilliunits`: multiplies by 1000 and rounds to the
nearest integer (`Math.round`, half up). -/
def currencyToMilliunits (amount : Rat) : Int :=
  round (amount * 1000)

/-- Membership test of a date's weekday ordinal in the configured
payment-weekday list, the test both loops of
`calculatePaymentDaysRemaining` and `debtStatus` perform via
`paymentDays.includes(dayOfWeek)`. -/
def isScheduledDay (date : Int) (paymentDays : List Int) : Bool :=
  decide (date % 7 ∈ paymentDays)

/-- The first loop of `calculatePaymentDaysRemaining`: walk every date
from `today` through `deadline` inclusive (`isBefore || isSame 'day'`)
and count those whose weekday is in `paymentDays`.  When
`deadline < today` the walk is empty. -/
def countScheduledDays (today deadline : Int) (paymentDays : List Int) : Nat :=
  (List.range (deadline + 1 - today).toNat).countP
    (fun k => isScheduledDay (today + (k : Int)) paymentDays)

/-- The qualifying predicate of the `paidDays` filter in
`calculatePaymentDaysRemaining`: `paymentDate.isAfter(today - 1 day)`,
`paymentDate.isBefore(deadline + 1 day)` (both strict), scheduled
weekday, and `amount >= 0`. -/
def qualifiesForWindow (today deadline : Int) (paymentDays : List Int)
    (p : PaymentHistoryItem) : Bool :=
  decide (today - 1 < p.date) && decide (p.date < deadline + 1) &&
    isScheduledDay p.date paymentDays && decide (0 ≤ p.amount)

/-- The `paidDays` count of `calculatePaymentDaysRemaining`: the length
of the history filtered by `qualifiesForWindow`. -/
def paidDaysCount (today deadline : Int) (paymentDays : List Int)
    (paymentHistory : List PaymentHistoryItem) : Nat :=
  (paymentHistory.filter (qualifiesForWindow today deadline paymentDays)).length

/-- Source `calculatePaymentDaysRemaining`:
`Math.max(0, paymentDaysCount - paidDays)`. -/
def calculatePaymentDaysRemaining (today deadline : Int)
    (paymentDays : List Int) (paymentHistory : List PaymentHistoryItem) : Int :=
  max 0 ((countScheduledDays today deadline paymentDays : Int) -
    (paidDaysCount today deadline paymentDays paymentHistory : Int))

/-- dayjs `absFloor`: truncation toward zero (`Math.ceil` of a negative
number, `Math.floor` otherwise), the rounding `diff` applies to the
millisecond quotient. -/
def absFloor (num : Rat) : Int :=
  if num < 0 then ⌈num⌉ else ⌊num⌋

/-- The calendar day an instant falls on: the floor of the instant
expressed in days. -/
def dayOfInstant (ms : Int) : Int :=
  ⌊(ms : Rat) / 86400000⌋

/-- Source `getDaysUntilDeadline`: `Math.max(0, deadline.diff(today, 'day'))`
where `today = dayjs()` is the full evaluation instant (`nowMs`, with
its time of day) and `deadline = dayjs(endDate)` is the midnight
starting the deadline day (`deadline * 86400000` ms).  dayjs `diff`
with unit day is `absFloor(diffMs / 86400000)` of the raw millisecond
difference; it does not normalise either operand to the start of its
day. -/
def getDaysUntilDeadline (nowMs deadline : Int) : Int :=
  max 0 (absFloor (((deadline * 86400000 - nowMs : Int) : Rat) / 86400000))

/-- `daysUntilDeadline` as the claim words it: the pure calendar-day
difference of the two dates, clamped at zero.  Stated for comparison
with `getDaysUntilDeadline`, the computation the source performs. -/
def getDaysUntilDeadlineClaimed (today deadline : Int) : Int :=
  max 0 (deadline - today)

/-- C1: `calculatePaymentDaysRemaining` returns
`max(0, totalScheduledDays - satisfiedDays)`; the result is non-negative,
and whenever `deadline < today` the enumerated date range is empty
(`countScheduledDays = 0`) and the result is 0. -/
theorem C1_paymentDaysRemaining_clamped (today deadline : Int)
    (paymentDays : List Int) (paymentHistory : List PaymentHistoryItem) :
    calculatePaymentDaysRemaining today deadline paymentDays paymentHistory =
      max 0 ((countScheduledDays today deadline paymentDays : Int) -
        (paidDaysCount today deadline paymentDays paymentHistory : Int)) ∧
    0 ≤ calculatePaymentDaysRemaining today deadline paymentDays paymentHistory ∧
    (deadline < today →
      countScheduledDays today deadline paymentDays = 0 ∧
      calculatePaymentDaysRemaining today deadline paymentDays paymentHistory = 0) := by
  refine ⟨rfl, le_max_left _ _, fun hlt => ?_⟩
  have hrange : (deadline + 1 - today).toNat = 0 := by omega
  have hcount : countScheduledDays today deadline paymentDays = 0 := by
    simp [countScheduledDays, hrange]
  refine ⟨hcount, ?_⟩
  have hpaid : (0 : Int) ≤ (paidDaysCount today deadline paymentDays paymentHistory : Int) :=
    Int.ofNat_nonneg _
  simp only [calculatePaymentDaysRemaining, hcount]
  omega

/-- Witness for C1 at a concrete input with `deadline < today`. -/
theorem C1_witness :
    (0 : Int) < 1 ∧
    countScheduledDays 1 0 [0, 1] = 0 ∧
    calculatePaymentDaysRemaining 1 0 [0, 1] [] = 0 :=
  ⟨by decide, (C1_paymentDaysRemaining_clamped 1 0 [0, 1] []).2.2 (by decide)⟩

/-- The satisfied-days count as the specification words it: records whose
date lies in the INCLUSIVE window from `today - 1` through `deadline + 1`,
whose weekday is scheduled, and whose amount is non-negative.  Stated for
comparison with `paidDaysCount`, the count the source computes. -/
def satisfiedDaysClaimed (today deadline : Int) (paymentDays : List Int)
    (paymentHistory : List PaymentHistoryItem) : Nat :=
  (paymentHistory.filter (fun p =>
    decide (today - 1 ≤ p.date) && decide (p.date ≤ deadline + 1) &&
      isScheduledDay p.date paymentDays && decide (0 ≤ p.amount))).length

/-- C2 counterexample: with `today = 8` (a Monday), `deadline = 9`,
Sunday scheduled, and one record dated `7 = today - 1` (a Sunday, amount
0), the source counts 0 qualifying records while the claimed inclusive
window counts 1: the boundary comparisons of the source are strict, so a
record dated exactly `today - 1` (or `deadline + 1`) never qualifies. -/
theorem C2_counterexample :
    paidDaysCount 8 9 [0] [⟨7, 0, 0, none, none⟩] = 0 ∧
    satisfiedDaysClaimed 8 9 [0] [⟨7, 0, 0, none, none⟩] = 1 := by
  decide

/-- C2 amended: `satisfiedDays` counts exactly the records whose date
lies STRICTLY inside `(today - 1, deadline + 1)` — equivalently in the
inclusive window from `today` through `deadline` — whose weekday is
scheduled and whose amount is non-negative; each record contributes
independently (so same-date duplicates each count), and a record on a
non-scheduled weekday changes neither the count nor the remaining days. -/
theorem C2_satisfiedDays_window (today deadline : Int) (paymentDays : List Int)
    (paymentHistory : List PaymentHistoryItem) (p : PaymentHistoryItem) :
    paidDaysCount today deadline paymentDays paymentHistory =
      (paymentHistory.filter (fun q =>
        decide (today ≤ q.date) && decide (q.date ≤ deadline) &&
          isScheduledDay q.date paymentDays && decide (0 ≤ q.amount))).length ∧
    paidDaysCount today deadline paymentDays (p :: paymentHistory) =
      (if qualifiesForWindow today deadline paymentDays p then 1 else 0) +
        paidDaysCount today deadline paymentDays paymentHistory ∧
    (isScheduledDay p.date paymentDays = false →
      paidDaysCount today deadline paymentDays (p :: paymentHistory) =
        paidDaysCount today deadline paymentDays paymentHistory ∧
      calculatePaymentDaysRemaining today deadline paymentDays (p :: paymentHistory) =
        calculatePaymentDaysRemaining today deadline paymentDays paymentHistory) := by
  have hwin : paidDaysCount today deadline paymentDays paymentHistory =
      (paymentHistory.filter (fun q =>
        decide (today ≤ q.date) && decide (q.date ≤ deadline) &&
          isScheduledDay q.date paymentDays && decide (0 ≤ q.amount))).length := by
    unfold paidDaysCount
    congr 1
    apply List.filter_congr
    intro q _
    unfold qualifiesForWindow
    have h1 : decide (today - 1 < q.date) = decide (today ≤ q.date) := by
      simp only [decide_eq_decide]; omega
    have h2 : decide (q.date < deadline + 1) = decide (q.date ≤ deadline) := by
      simp only [decide_eq_decide]; omega
    rw [h1, h2]
  have hcons : paidDaysCount today deadline paymentDays (p :: paymentHistory) =
      (if qualifiesForWindow today deadline paymentDays p then 1 else 0) +
        paidDaysCount today deadline paymentDays paymentHistory := by
    unfold paidDaysCount
    rw [List.filter_cons]
    by_cases hq : qualifiesForWindow today deadline paymentDays p
    · simp [hq]; omega
    · simp [hq]
  refine ⟨hwin, hcons, fun hs => ?_⟩
  have hqf : qualifiesForWindow today deadline paymentDays p = false := by
    unfold qualifiesForWindow
    rw [hs]
    simp
  have hpaid : paidDaysCount today deadline paymentDays (p :: paymentHistory) =
      paidDaysCount today deadline paymentDays paymentHistory := by
    rw [hcons, hqf]; simp
  exact ⟨hpaid, by unfold calculatePaymentDaysRemaining; rw [hpaid]⟩

/-- Witness for C2: a record dated inside the window on a non-scheduled
weekday (Saturday, ordinal 6) leaves both counts unchanged. -/
theorem C2_witness :
    paidDaysCount 8 20 [1, 2] [⟨9, 5, 5, none, none⟩] =
      (List.filter (fun q =>
        decide ((8 : Int) ≤ q.date) && decide (q.date ≤ (20 : Int)) &&
          isScheduledDay q.date [1, 2] && decide (0 ≤ q.amount))
        ([⟨9, 5, 5, none, none⟩] : List PaymentHistoryItem)).length ∧
    paidDaysCount 8 20 [1, 2] [⟨13, 7, 7, none, none⟩, ⟨9, 5, 5, none, none⟩] =
      paidDaysCount 8 20 [1, 2] [⟨9, 5, 5, none, none⟩] ∧
    calculatePaymentDaysRemaining 8 20 [1, 2] [⟨13, 7, 7, none, none⟩, ⟨9, 5, 5, none, none⟩] =
      calculatePaymentDaysRemaining 8 20 [1, 2] [⟨9, 5, 5, none, none⟩] := by
  have h := C2_satisfiedDays_window 8 20 [1, 2] [⟨9, 5, 5, none, none⟩] ⟨13, 7, 7, none, none⟩
  exact ⟨h.1, (h.2.2 (by decide)).1, (h.2.2 (by decide)).2⟩

/-- Helper: on the instant `today * 86400000 + t` (calendar day `today`,
time of day `t` ms, `0 ≤ t < 86400000`), `getDaysUntilDeadline` is
`max 0 (deadline - today)` at exactly midnight and
`max 0 (deadline - today - 1)` at any later time of day. -/
theorem getDaysUntilDeadline_decompose (today deadline t : Int)
    (ht0 : 0 ≤ t) (htD : t < 86400000) :
    getDaysUntilDeadline (today * 86400000 + t) deadline =
      if t = 0 then max 0 (deadline - today) else max 0 (deadline - today - 1) := by
  have harg : deadline * 86400000 - (today * 86400000 + t) =
      (deadline - today) * 86400000 - t := by ring
  have hD : (0 : Rat) < 86400000 := by norm_num
  unfold getDaysUntilDeadline absFloor
  rw [harg]
  by_cases ht : t = 0
  · rw [if_pos ht]
    subst ht
    have hcast : (((deadline - today) * 86400000 - 0 : Int) : Rat) / 86400000 =
        ((deadline - today : Int) : Rat) := by
      push_cast
      field_simp
    rw [hcast]
    by_cases hneg : ((deadline - today : Int) : Rat) < 0
    · rw [if_pos hneg, Int.ceil_intCast]
    · rw [if_neg hneg, Int.floor_intCast]
  · rw [if_neg ht]
    have ht1 : (1 : Rat) ≤ (t : Rat) := by
      have h1 : (1 : Int) ≤ t := by omega
      exact_mod_cast h1
    have htD' : (t : Rat) < 86400000 := by exact_mod_cast htD
    by_cases hk : 1 ≤ deadline - today
    · have hk' : (1 : Rat) ≤ (deadline : Rat) - (today : Rat) := by
        exact_mod_cast hk
      have hfloor : ⌊(((deadline - today) * 86400000 - t : Int) : Rat) / 86400000⌋ =
          deadline - today - 1 := by
        rw [Int.floor_eq_iff]
        constructor
        · rw [le_div_iff₀ hD]
          push_cast
          linarith
        · rw [div_lt_iff₀ hD]
          push_cast
          linarith
      have hnn : ¬ ((((deadline - today) * 86400000 - t : Int) : Rat) / 86400000 < 0) := by
        push_neg
        apply div_nonneg _ (le_of_lt hD)
        push_cast
        linarith
      rw [if_neg hnn, hfloor]
    · have hk' : (deadline : Rat) - (today : Rat) ≤ 0 := by
        have h1 : deadline - today ≤ 0 := by omega
        exact_mod_cast h1
      have hmul : ((deadline : Rat) - (today : Rat)) * 86400000 ≤ 0 :=
        mul_nonpos_iff.mpr (Or.inr ⟨hk', by norm_num⟩)
      have hneg : (((deadline - today) * 86400000 - t : Int) : Rat) / 86400000 < 0 := by
        apply div_neg_of_neg_of_pos _ hD
        push_cast
        linarith
      have hceil : ⌈(((deadline - today) * 86400000 - t : Int) : Rat) / 86400000⌉ =
          deadline - today := by
        rw [Int.ceil_eq_iff]
        constructor
        · rw [lt_div_iff₀ hD]
          push_cast
          linarith
        · rw [div_le_iff₀ hD]
          push_cast
          linarith
      rw [if_pos hneg, hceil]
      omega

/-- C5 counterexample: evaluated at noon of day 0 (`nowMs = 43200000`)
with the deadline on day 1 (tomorrow), the source returns 0 — dayjs
`diff` truncates the elapsed half day — while the pure calendar-day
difference the claim describes gives 1. -/
theorem C5_counterexample :
    dayOfInstant 43200000 = 0 ∧
    getDaysUntilDeadline 43200000 1 = 0 ∧
    getDaysUntilDeadlineClaimed 0 1 = 1 := by
  refine ⟨?_, ?_, by decide⟩
  · unfold dayOfInstant
    rw [show ((43200000 : Int) : Rat) / 86400000 = 1 / 2 by norm_num]
    exact Int.floor_eq_iff.mpr (by norm_num)
  · have h := getDaysUntilDeadline_decompose 0 1 43200000 (by norm_num) (by norm_num)
    norm_num at h
    exact h

/-- C5 amended: with the evaluation instant split into calendar day
`today` plus time of day `t` ms (`0 ≤ t < 86400000`), and the deadline
held fixed: advancing the instant by one full day never increases the
result; the result is never negative; it is 0 whenever `today` is
strictly after the deadline; and instead of the pure calendar-day
difference it equals `max 0 (deadline - today)` only at exactly
midnight, and `max 0 (deadline - today - 1)` at any later time of day —
dayjs `diff` truncates the elapsed time of day.  No weekday filtering
is involved. -/
theorem C5_daysUntilDeadline_truncated (today deadline t : Int)
    (ht0 : 0 ≤ t) (htD : t < 86400000) :
    getDaysUntilDeadline (today * 86400000 + t + 86400000) deadline ≤
      getDaysUntilDeadline (today * 86400000 + t) deadline ∧
    0 ≤ getDaysUntilDeadline (today * 86400000 + t) deadline ∧
    (deadline < today → getDaysUntilDeadline (today * 86400000 + t) deadline = 0) ∧
    (t = 0 → getDaysUntilDeadline (today * 86400000 + t) deadline =
      max 0 (deadline - today)) ∧
    (0 < t → getDaysUntilDeadline (today * 86400000 + t) deadline =
      max 0 (deadline - today - 1)) := by
  have h1 := getDaysUntilDeadline_decompose today deadline t ht0 htD
  have h2 := getDaysUntilDeadline_decompose (today + 1) deadline t ht0 htD
  have hshift : (today + 1) * 86400000 + t = today * 86400000 + t + 86400000 := by
    ring
  rw [hshift] at h2
  by_cases ht : t = 0
  · rw [if_pos ht] at h1 h2
    rw [h1, h2]
    exact ⟨by omega, by omega, fun h => by omega, fun h => rfl, fun h => by omega⟩
  · rw [if_neg ht] at h1 h2
    rw [h1, h2]
    exact ⟨by omega, by omega, fun h => by omega, fun h => by omega, fun h => rfl⟩

/-- Witness for C5 at noon of day 0 with the deadline on day 2. -/
theorem C5_witness :
    ((0 : Int) ≤ 43200000 ∧ (43200000 : Int) < 86400000) ∧
    getDaysUntilDeadline (0 * 86400000 + 43200000 + 86400000) 2 ≤
      getDaysUntilDeadline (0 * 86400000 + 43200000) 2 ∧
    ((0 : Int) < 43200000 ∧
      getDaysUntilDeadline (0 * 86400000 + 43200000) 2 = max 0 (2 - 0 - 1)) := by
  have h := C5_daysUntilDeadline_truncated 0 2 43200000 (by norm_num) (by norm_num)
  exact ⟨⟨by norm_num, by norm_num⟩, h.1, by norm_num, h.2.2.2.2 (by norm_num)⟩

/-- A status verdict as the page shows it: display text and colour class. -/
structure StatusVerdict where
  text : String
  color : String
deriving DecidableEq

/-- The `madePaymentToday` test of `debtStatus`: some history record is
dated exactly today and has `amount >= 0`. -/
def madePaymentToday (today : Int) (paymentHistory : List PaymentHistoryItem) : Bool :=
  paymentHistory.any (fun p => decide (p.date = today) && decide (0 ≤ p.amount))

/-- Source `debtStatus` (page.tsx): branch on whether today is a payment
day and whether a qualifying payment was recorded today, with a trailing
else branch returning the verdict "Al día". -/
def debtStatus (today : Int) (paymentDays : List Int)
    (paymentHistory : List PaymentHistoryItem) : StatusVerdict :=
  let isPaymentDay := isScheduledDay today paymentDays
  let made := madePaymentToday today paymentHistory
  if isPaymentDay && made then ⟨"¡Pago realizado hoy!", "text-green-400"⟩
  else if isPaymentDay && !made then ⟨"Pago pendiente hoy", "text-red-400"⟩
  else if !isPaymentDay then ⟨"No es día de pago", "text-blue-400"⟩
  else ⟨"Al día", "text-green-400"⟩

/-- Helper: the classifier collapses to three reachable branches. -/
theorem debtStatus_three_cases (today : Int) (paymentDays : List Int)
    (paymentHistory : List PaymentHistoryItem) :
    debtStatus today paymentDays paymentHistory =
      if today % 7 ∈ paymentDays then
        if madePaymentToday today paymentHistory then
          ⟨"¡Pago realizado hoy!", "text-green-400"⟩
        else ⟨"Pago pendiente hoy", "text-red-400"⟩
      else ⟨"No es día de pago", "text-blue-400"⟩ := by
  simp only [debtStatus, isScheduledDay]
  by_cases hs : today % 7 ∈ paymentDays <;>
    by_cases hm : madePaymentToday today paymentHistory <;>
    simp [hs, hm]

/-- C3: the verdict is "payment completed today" exactly when today is a
scheduled weekday and some record is dated today with non-negative
amount, "payment pending today" exactly when today is scheduled and no
such record exists, and "not a payment day" exactly when today is not a
scheduled weekday — in particular always so for an empty weekday set. -/
theorem C3_debtStatus_classification (today : Int) (paymentDays : List Int)
    (paymentHistory : List PaymentHistoryItem) :
    ((debtStatus today paymentDays paymentHistory).text = "¡Pago realizado hoy!" ↔
      (today % 7 ∈ paymentDays ∧ ∃ p ∈ paymentHistory, p.date = today ∧ 0 ≤ p.amount)) ∧
    ((debtStatus today paymentDays paymentHistory).text = "Pago pendiente hoy" ↔
      (today % 7 ∈ paymentDays ∧ ¬ ∃ p ∈ paymentHistory, p.date = today ∧ 0 ≤ p.amount)) ∧
    ((debtStatus today paymentDays paymentHistory).text = "No es día de pago" ↔
      ¬ today % 7 ∈ paymentDays) ∧
    (debtStatus today [] paymentHistory).text = "No es día de pago" := by
  have hmade : madePaymentToday today paymentHistory = true ↔
      ∃ p ∈ paymentHistory, p.date = today ∧ 0 ≤ p.amount := by
    simp [madePaymentToday]
  have hempty : (debtStatus today [] paymentHistory).text = "No es día de pago" := by
    rw [debtStatus_three_cases]
    simp
  rw [debtStatus_three_cases]
  by_cases hs : today % 7 ∈ paymentDays
  · by_cases hm : madePaymentToday today paymentHistory
    · simp only [hs, hm, if_true, if_pos]
      refine ⟨?_, ?_, ?_, hempty⟩ <;> simp [hs, hmade.mp hm]
    · simp only [hs, hm, if_true, if_neg, Bool.false_eq_true, if_false]
      have hno : ¬ ∃ p ∈ paymentHistory, p.date = today ∧ 0 ≤ p.amount := by
        intro hex
        exact absurd (hmade.mpr hex) (by simp [hm])
      refine ⟨?_, ?_, ?_, hempty⟩ <;> simp [hs, hno]
  · simp only [hs, if_neg, if_false]
    refine ⟨?_, ?_, ?_, hempty⟩ <;> simp [hs]

/-- C8: the fourth ("Al día") branch of `debtStatus` is dead code: every
input lands in one of the three reachable verdicts. -/
theorem C8_fourth_branch_unreachable (today : Int) (paymentDays : List Int)
    (paymentHistory : List PaymentHistoryItem) :
    (debtStatus today paymentDays paymentHistory).text = "¡Pago realizado hoy!" ∨
    (debtStatus today paymentDays paymentHistory).text = "Pago pendiente hoy" ∨
    (debtStatus today paymentDays paymentHistory).text = "No es día de pago" := by
  rw [debtStatus_three_cases]
  by_cases hs : today % 7 ∈ paymentDays
  · by_cases hm : madePaymentToday today paymentHistory
    · exact Or.inl (by simp [hs, hm])
    · exact Or.inr (Or.inl (by simp [hs, hm]))
  · exact Or.inr (Or.inr (by simp [hs]))

/-- Source `estimatedFinishDate` (page.tsx): return the sentinel "N/A"
(`none`) when the preset payment amount is not positive; otherwise
`paymentsLeft = Math.ceil(accountBalance / presetPaymentAmount)` and the
finish date is today plus `paymentsLeft * 15` days (`some` of that day).
The weekday schedule plays no part in the computation. -/
def estimatedFinishDate (today : Int) (accountBalance presetPaymentAmount : Rat) :
    Option Int :=
  if presetPaymentAmount ≤ 0 then none
  else some (today + 15 * ⌈accountBalance / presetPaymentAmount⌉)

/-- C4: for every balance and every positive payment amount the projector
yields today plus 15 days per payment left, with
`paymentsLeft = ceil(balance / amount)`; in particular a 300.00 balance
at 20.00 per payment gives 15 payments left and today + 225 days. -/
theorem C4_estimatedFinishDate_formula (today : Int)
    (accountBalance presetPaymentAmount : Rat)
    (hpos : 0 < presetPaymentAmount) :
    estimatedFinishDate today accountBalance presetPaymentAmount =
      some (today + 15 * ⌈accountBalance / presetPaymentAmount⌉) ∧
    ⌈(300 : Rat) / 20⌉ = 15 ∧
    estimatedFinishDate today 300 20 = some (today + 225) := by
  have h300 : ⌈(300 : Rat) / 20⌉ = 15 := by
    norm_num
  refine ⟨?_, h300, ?_⟩
  · unfold estimatedFinishDate
    rw [if_neg (not_le.mpr hpos)]
  · unfold estimatedFinishDate
    rw [if_neg (by norm_num), h300]
    norm_num

/-- Witness for C4 at today = 100, balance 300.00, amount 20.00. -/
theorem C4_witness :
    (0 : Rat) < 20 ∧
    estimatedFinishDate 100 300 20 = some (100 + 225) :=
  ⟨by norm_num, (C4_estimatedFinishDate_formula 100 300 20 (by norm_num)).2.2⟩

/-- C7: a non-positive payment amount short-circuits the projector to the
sentinel (`none`, the string "N/A" in the page): no division happens and
no finite projection is produced. -/
theorem C7_estimatedFinishDate_sentinel (today : Int)
    (accountBalance presetPaymentAmount : Rat)
    (hnp : presetPaymentAmount ≤ 0) :
    estimatedFinishDate today accountBalance presetPaymentAmount = none := by
  unfold estimatedFinishDate
  rw [if_pos hnp]

/-- Witness for C7 at a zero payment amount. -/
theorem C7_witness :
    (0 : Rat) ≤ 0 ∧ estimatedFinishDate 100 300 0 = none :=
  ⟨by norm_num, C7_estimatedFinishDate_sentinel 100 300 0 (by norm_num)⟩

/-- C9: for every amount with cent precision — `y = c / 100` with
`c : Nat`, `y ≤ 10 ^ 9` — converting to milliunits (times 1000, rounded
to nearest) and back (divide by 1000) reproduces `y` exactly, hence in
particular to two decimal places. -/
theorem C9_currency_round_trip (c : Nat) (_hc : c ≤ 10 ^ 11) :
    milliunitsToCurrency ((currencyToMilliunits ((c : Rat) / 100) : Int) : Rat) =
      (c : Rat) / 100 := by
  have hmul : ((c : Rat) / 100) * 1000 = ((10 * c : Nat) : Rat) := by
    push_cast
    ring
  have hround : currencyToMilliunits ((c : Rat) / 100) = (10 * c : Nat) := by
    unfold currencyToMilliunits
    rw [hmul]
    exact round_natCast _
  rw [hround]
  unfold milliunitsToCurrency
  push_cast
  ring

/-- Witness for C9 at 20.00 (c = 2000). -/
theorem C9_witness :
    (2000 : Nat) ≤ 10 ^ 11 ∧
    milliunitsToCurrency ((currencyToMilliunits ((2000 : Nat) / 100 : Rat) : Int) : Rat) =
      ((2000 : Nat) : Rat) / 100 :=
  ⟨by norm_num, C9_currency_round_trip 2000 (by norm_num)⟩

/-- The per-record mapping of the `paymentTransactions` pipeline: the
amount (and displayed balance) is the absolute milliunit value converted
to currency, the clearance flag is kept, and a missing or empty memo
becomes absent (`t.memo || undefined`). -/
def toPaymentRecord (t : RawTransaction) : PaymentHistoryItem where
  date := t.date
  amount := milliunitsToCurrency ((|t.amount| : Int) : Rat)
  balance := milliunitsToCurrency ((|t.amount| : Int) : Rat)
  cleared := some t.cleared
  memo := match t.memo with
    | some s => if s = "" then none else some s
    | none => none

/-- Stable insertion into a date-descending list of raw transactions. -/
def insertRawDesc (t : RawTransaction) :
    List RawTransaction → List RawTransaction
  | [] => [t]
  | u :: l => if u.date ≤ t.date then t :: u :: l else u :: insertRawDesc t l

/-- Stable sort of raw transactions by date descending (newest first),
the comparator of the source pipeline. -/
def sortRawDesc : List RawTransaction → List RawTransaction
  | [] => []
  | t :: l => insertRawDesc t (sortRawDesc l)

/-- Stable insertion into a date-descending list of payment records. -/
def insertRecDesc (p : PaymentHistoryItem) :
    List PaymentHistoryItem → List PaymentHistoryItem
  | [] => [p]
  | q :: l => if q.date ≤ p.date then p :: q :: l else q :: insertRecDesc p l

/-- Stable sort of payment records by date descending (newest first). -/
def sortRecDesc : List PaymentHistoryItem → List PaymentHistoryItem
  | [] => []
  | p :: l => insertRecDesc p (sortRecDesc l)

/-- Source `paymentTransactions` pipeline (page.tsx): sort the fetched
transactions by date descending, `slice(0, 20)`, then map each into the
payment-history shape. -/
def paymentTransactions (transactions : List RawTransaction) :
    List PaymentHistoryItem :=
  ((sortRawDesc transactions).take 20).map toPaymentRecord

/-- The reconciler as the specification words it: convert each record
(absolute value, divide by 1000), sort by date descending, truncate to
the 20 most recent. -/
def paymentTransactionsSpec (transactions : List RawTransaction) :
    List PaymentHistoryItem :=
  (sortRecDesc (transactions.map toPaymentRecord)).take 20

/-- Helper: mapping the record conversion commutes with the descending
insertion, because the conversion keeps the date. -/
theorem map_insertRawDesc (t : RawTransaction) (l : List RawTransaction) :
    (insertRawDesc t l).map toPaymentRecord =
      insertRecDesc (toPaymentRecord t) (l.map toPaymentRecord) := by
  induction l with
  | nil => rfl
  | cons u l ih =>
    simp only [insertRawDesc, insertRecDesc]
    by_cases h : u.date ≤ t.date
    · rw [if_pos h, if_pos]
      · simp
      · exact h
    · rw [if_neg h, if_neg]
      · simp [ih]
      · exact h

/-- Helper: mapping the record conversion commutes with the descending
sort. -/
theorem map_sortRawDesc (l : List RawTransaction) :
    (sortRawDesc l).map toPaymentRecord = sortRecDesc (l.map toPaymentRecord) := by
  induction l with
  | nil => rfl
  | cons t l ih =>
    simp only [sortRawDesc, sortRecDesc, List.map_cons]
    rw [map_insertRawDesc, ih]

/-- C6: the source pipeline (sort, truncate to 20, convert) produces
exactly the sequence the specification describes (convert, sort by date
descending, truncate to the 20 most recent); older records are dropped
by the truncation. -/
theorem C6_paymentTransactions_pipeline (transactions : List RawTransaction) :
    paymentTransactions transactions = paymentTransactionsSpec transactions := by
  unfold paymentTransactions paymentTransactionsSpec
  rw [← map_sortRawDesc, ← List.map_take]

/-- C10: every record the reconciler produces has a non-negative amount
(the mapping takes an absolute value), so the `amount >= 0` clause of the
deadline-counter filter and of the payment-recorded-today test is
vacuously true on reconciled records: such a record can only be
disqualified by its date or weekday. -/
theorem C10_reconciled_amount_nonneg (transactions : List RawTransaction)
    (p : PaymentHistoryItem) (today deadline : Int) (paymentDays : List Int)
    (hp : p ∈ paymentTransactions transactions) :
    0 ≤ p.amount ∧
    qualifiesForWindow today deadline paymentDays p =
      (decide (today - 1 < p.date) && decide (p.date < deadline + 1) &&
        isScheduledDay p.date paymentDays) ∧
    (decide (p.date = today) && decide (0 ≤ p.amount)) = decide (p.date = today) := by
  have hamt : 0 ≤ p.amount := by
    unfold paymentTransactions at hp
    rcases List.mem_map.mp hp with ⟨t, _, rfl⟩
    show 0 ≤ milliunitsToCurrency ((|t.amount| : Int) : Rat)
    unfold milliunitsToCurrency
    positivity
  have hdec : decide (0 ≤ p.amount) = true := decide_eq_true hamt
  refine ⟨hamt, ?_, ?_⟩
  · unfold qualifiesForWindow
    rw [hdec, Bool.and_true]
  · rw [hdec, Bool.and_true]

/-- Witness for C10: the reconciliation of a single debit of -7000
milliunits dated day 5 yields a record with amount 7.00 ≥ 0. -/
theorem C10_witness :
    (⟨5, 7, 7, some "c", none⟩ : PaymentHistoryItem) ∈
      paymentTransactions [⟨5, -7000, "c", none⟩] ∧
    0 ≤ (⟨5, 7, 7, some "c", none⟩ : PaymentHistoryItem).amount ∧
    qualifiesForWindow 5 9 [0] ⟨5, 7, 7, some "c", none⟩ =
      (decide ((5 : Int) - 1 < (⟨5, 7, 7, some "c", none⟩ : PaymentHistoryItem).date) &&
        decide ((⟨5, 7, 7, some "c", none⟩ : PaymentHistoryItem).date < 9 + 1) &&
        isScheduledDay (⟨5, 7, 7, some "c", none⟩ : PaymentHistoryItem).date [0]) ∧
    (decide ((⟨5, 7, 7, some "c", none⟩ : PaymentHistoryItem).date = 5) &&
        decide (0 ≤ (⟨5, 7, 7, some "c", none⟩ : PaymentHistoryItem).amount)) =
      decide ((⟨5, 7, 7, some "c", none⟩ : PaymentHistoryItem).date = 5) := by
  have hlist : paymentTransactions [⟨5, -7000, "c", none⟩] =
      [⟨5, 7, 7, some "c", none⟩] := by
    norm_num [paymentTransactions, sortRawDesc, insertRawDesc, toPaymentRecord,
      milliunitsToCurrency, PaymentHistoryItem.mk.injEq]
  have hmem : (⟨5, 7, 7, some "c", none⟩ : PaymentHistoryItem) ∈
      paymentTransactions [⟨5, -7000, "c", none⟩] := by
    rw [hlist]
    exact List.mem_singleton.mpr rfl
  have h := C10_reconciled_amount_nonneg [⟨5, -7000, "c", none⟩]
    ⟨5, 7, 7, some "c", none⟩ 5 9 [0] hmem
  exact ⟨hmem, h.1, h.2.1, h.2.2⟩
